import Mathlib

/-!
Shallow embedding of `stream3-concat` (src/index.js), a dynamic stream
multiplexer built on Node's `PassThrough`.

Modelling choices, traced to the source:

* Sources are identified by natural-number ids.  A `Concat` instance carries
  the fields the methods read and write: `_closed` (line 56), `_sources`
  (line 57, a JS array: ordered, duplicates possible), and the sink's
  ended flag (Node's writable `state.ending`, set by `this.end()`).
* `this.readable` (line 108) is Node's readable flag, false once the stream
  has ended.  Node flips it asynchronously when `end` is emitted, but since
  `end()` itself is idempotent (Node's `Writable.prototype.end` ignores
  repeated calls, and `endReadableNT` emits `end` at most once, guarded by
  `state.endEmitted`), identifying `readable` with the negation of the ended
  flag preserves every observable event count and membership outcome of the
  synchronous call sequences the claims quantify over.
* Emitted sink events are collected in a list: `endEv` (the readable `end`
  emission produced by `this.end()`), `closeEv` (line 145 `this.emit`),
  `dataEv` (forwarded payloads; never produced by the membership operations
  themselves, since data forwarding is deferred piping, lines 90-92).
* JavaScript dynamic typing is a small universe `JSVal` covering the value
  shapes the API distinguishes: a valid readable stream, an array, `null`,
  `undefined`, and a plain object.  `isReadableStream` (lines 174-178),
  `isArray` (lines 165-167) and `isObject` (lines 156-158, which reports
  `[object Object]` for plain objects and also for stream instances) are
  translated from their helper functions.
* Exceptions do not roll back prior mutations: throwing operations return
  the state reached at the point of the throw together with `some` error,
  exactly as a JS exception escaping `forEach` leaves earlier pushes in
  place (lines 78-80 recursing via `forEach`).
* `setImmediate` deferral (lines 90-92, 142-146) orders the `close` emission
  after the synchronous `clear()` effects inside `close()`; the deferred
  pipe wiring itself touches no modelled state.
-/

/-- Error values thrown by the code: `Error('Stream is closed')` (line 75),
`Error('Invalid readable stream')` (line 84), and the TypeError raised by
calling a missing method on a non-stream value (line 104). -/
inductive JSError where
  | closedError
  | invalidSourceError
  | typeError
deriving DecidableEq, Repr

/-- Events observable on the sink. -/
inductive Ev where
  | endEv
  | closeEv
  | dataEv (payload : Nat)
deriving DecidableEq, Repr

/-- Return value of a method: the instance itself (`return this`) or
`undefined` (a bare `return`, line 136). -/
inductive RetVal where
  | retThis
  | retUndef
deriving DecidableEq, Repr

/-- The dynamic values the API distinguishes. -/
inductive JSVal where
  | streamV (id : Nat)
  | arrV (xs : List JSVal)
  | nullV
  | undefV
  | objV
deriving Repr

/-- `isReadableStream` (lines 174-178): instance of `stream.Readable` with
`_read` and `_readableState`; in the universe exactly the stream values. -/
def isReadableStream : JSVal → Bool
  | .streamV _ => true
  | _ => false

/-- `isArray` (lines 165-167). -/
def isArray : JSVal → Bool
  | .arrV _ => true
  | _ => false

/-- `isObject` (lines 156-158): `Object.prototype.toString` reports
`[object Object]` for plain objects and also for stream instances (which
define no `Symbol.toStringTag`); arrays, `null` and `undefined` report
other tags. -/
def isObject : JSVal → Bool
  | .objV => true
  | .streamV _ => true
  | _ => false

/-- Whether the value owns an `unpipe` method (only `stream.Readable`
instances do); calling `unpipe` on anything else throws a TypeError. -/
def hasUnpipe : JSVal → Bool
  | .streamV _ => true
  | _ => false

/-- JS truthiness of the values in the universe (`streams || []`, line 49). -/
def truthy : JSVal → Bool
  | .nullV => false
  | .undefV => false
  | _ => true

/-- Strict equality against `undefined` (`options === undefined`, line 44). -/
def isUndef : JSVal → Bool
  | .undefV => true
  | _ => false

/-- State of a `Concat` instance: `_closed` (line 56), `_sources` (line 57),
and the sink's ended flag (set by `this.end()`). -/
structure Concat where
  closed : Bool
  sources : List Nat
  ended : Bool
deriving DecidableEq, Repr

/-- `this.readable`: false once the stream has ended (see the module
comment for why this is identified with the negated ended flag). -/
def Concat.readable (st : Concat) : Bool := !st.ended

/-- `this.end()`: Node's `Writable.prototype.end` ignores repeated calls
(`if (!state.ending && !state.finished)`), and the `end` event is emitted
at most once; so a first call ends the sink and emits `endEv`, later calls
do nothing. -/
def Concat.sinkEnd (st : Concat) : Concat × List Ev :=
  if st.ended then (st, [])
  else ({ st with ended := true }, [Ev.endEv])

mutual

/-- `Concat.prototype.add` (lines 73-95).  Closed check first (lines 74-76),
then the array branch recursing through `forEach` (lines 78-81), then
validation (lines 83-85), then `this._sources.push(source)` (line 87).
The `once('end', remove)` listener and the deferred `pipe` (lines 89-92)
install wiring outside the modelled state.  On a throw the state reached so
far is returned with the error. -/
def Concat.add (st : Concat) (v : JSVal) : Concat × Option JSError :=
  if st.closed then (st, some JSError.closedError)
  else
    match v with
    | .arrV xs => Concat.addList st xs
    | .streamV i => ({ st with sources := st.sources ++ [i] }, none)
    | _ => (st, some JSError.invalidSourceError)

/-- `source.forEach(this.add.bind(this))` (line 79): items processed in
order; an exception thrown by one item aborts the rest of the iteration and
propagates, keeping the mutations already performed. -/
def Concat.addList (st : Concat) (vs : List JSVal) : Concat × Option JSError :=
  match vs with
  | [] => (st, none)
  | x :: xs =>
    let res := Concat.add st x
    match res.2 with
    | none => Concat.addList res.1 xs
    | some e => (res.1, some e)

end

/-- `Concat.prototype.remove` (lines 103-113) on a stream value:
`source.unpipe(this)` (line 104, wiring only; when a pipe existed this
re-enters `remove` through the sink's `unpipe` listener, a no-op on the
already-filtered state), then `this._sources = this._sources.filter(...)`
(line 106), then `if (this._sources.length === 0 && this.readable)
this.end()` (lines 108-110). -/
def Concat.removeStream (st : Concat) (s : Nat) : Concat × List Ev :=
  let st1 := { st with sources := st.sources.filter (fun x => x ≠ s) }
  if st1.sources.isEmpty && st1.readable then st1.sinkEnd
  else (st1, [])

/-- `Concat.prototype.remove` on an arbitrary value: line 104 invokes
`source.unpipe(this)` unconditionally, so a value without an `unpipe`
method throws a TypeError before any state is touched. -/
def Concat.remove (st : Concat) (v : JSVal) : (Concat × List Ev) × Option JSError :=
  match v with
  | .streamV i => (st.removeStream i, none)
  | _ => ((st, []), some JSError.typeError)

/-- The iteration inside `clear` (lines 122-124): `forEach` walks the array
snapshot captured when `clear` was entered, because `remove` replaces
`this._sources` with a fresh filtered array rather than mutating it. -/
def Concat.clearGo (l : List Nat) (st : Concat) : Concat × List Ev :=
  match l with
  | [] => (st, [])
  | s :: rest =>
    let (st1, evs1) := st.removeStream s
    let (st2, evs2) := Concat.clearGo rest st1
    (st2, evs1 ++ evs2)

/-- `Concat.prototype.clear` (lines 121-127). -/
def Concat.clear (st : Concat) : Concat × List Ev :=
  Concat.clearGo st.sources st

/-- `Concat.prototype.close` (lines 134-149).  Already closed: bare
`return`, yielding `undefined` (lines 135-137).  Otherwise set `_closed`
(line 139), run `clear()` (line 140), and on the next scheduling turn pause
the stream and emit `close` (lines 142-146) — deferred, hence ordered after
every event `clear` produced; finally `return this` (line 148). -/
def Concat.close (st : Concat) : (Concat × List Ev) × RetVal :=
  if st.closed then ((st, []), RetVal.retUndef)
  else
    let st1 := { st with closed := true }
    let (st2, evs) := st1.clear
    ((st2, evs ++ [Ev.closeEv]), RetVal.retThis)

/-- The constructor body run under `new` (lines 35-62): argument-shape
sniffing (lines 41-47), `streams = streams || []` (line 49), option merging
(line 50, `objectMode` forced; options do not enter the modelled state),
fresh `_closed` / `_sources` (lines 56-57), then
`streams.forEach(this.add.bind(this))` (line 59); a non-array truthy
`streams` value at that point has no `forEach` and throws a TypeError.
The `unpipe` listener (line 61) routes external unpipes to `remove`. -/
def newConcat (streams options : JSVal) : Concat × Option JSError :=
  let streams1 :=
    if isReadableStream streams then JSVal.arrV [streams]
    else if isObject streams && isUndef options then JSVal.arrV []
    else streams
  let streams2 := if truthy streams1 then streams1 else JSVal.arrV []
  let st0 : Concat := { closed := false, sources := [], ended := false }
  match streams2 with
  | JSVal.arrV xs => Concat.addList st0 xs
  | _ => (st0, some JSError.typeError)

/-- `Concat` invoked as a plain function (lines 36-38): `this` is not a
`Concat` instance, so the body executes `return new Concat(options)` —
passing only the second parameter and discarding the first. -/
def concatCall (streams options : JSVal) : Concat × Option JSError :=
  newConcat options JSVal.undefV

/-- The state of a freshly constructed instance with zero sources. -/
def initConcat : Concat := { closed := false, sources := [], ended := false }

/-! ## Helper lemmas -/

/-- `remove` never touches the `_closed` flag. -/
theorem Concat.removeStream_closed (st : Concat) (s : Nat) :
    (st.removeStream s).1.closed = st.closed := by
  unfold Concat.removeStream Concat.sinkEnd
  dsimp only
  split
  · split <;> rfl
  · rfl

/-- The iteration inside `clear` never touches the `_closed` flag. -/
theorem Concat.clearGo_closed (l : List Nat) :
    ∀ st : Concat, (Concat.clearGo l st).1.closed = st.closed := by
  induction l with
  | nil => intro st; rfl
  | cons s rest ih =>
    intro st
    unfold Concat.clearGo
    dsimp only
    rw [ih]
    exact Concat.removeStream_closed st s

/-- On an already-ended sink the iteration inside `clear` drops every
member occurring in the snapshot and emits nothing (the guard at line 108
fails since `this.readable` is false). -/
theorem Concat.clearGo_ended (l : List Nat) :
    ∀ st : Concat, st.ended = true → (∀ x ∈ st.sources, x ∈ l) →
    Concat.clearGo l st = ({ st with sources := [] }, []) := by
  induction l with
  | nil =>
    intro st he hsub
    have hnil : st.sources = [] :=
      List.eq_nil_iff_forall_not_mem.mpr (fun a ha => (List.not_mem_nil a) (hsub a ha))
    obtain ⟨c, srcs, e⟩ := st
    simp only at hnil he
    subst hnil he
    rfl
  | cons s rest ih =>
    intro st he hsub
    have hrs : st.removeStream s
        = ({ st with sources := st.sources.filter (fun x => x ≠ s) }, []) := by
      unfold Concat.removeStream
      simp [Concat.readable, he]
    have hsub' : ∀ x ∈ ({ st with sources := st.sources.filter (fun x => x ≠ s) } : Concat).sources,
        x ∈ rest := by
      intro x hx
      have hm := List.mem_filter.mp hx
      have hxs : x ≠ s := by simpa using hm.2
      rcases List.mem_cons.mp (hsub x hm.1) with h | h
      · exact absurd h hxs
      · exact h
    unfold Concat.clearGo
    dsimp only
    rw [hrs]
    dsimp only
    rw [ih { st with sources := st.sources.filter (fun x => x ≠ s) } he hsub']
    simp

/-- On a not-yet-ended sink, running the iteration inside `clear` over a
snapshot covering every member empties the Active Set, ends the sink, and
emits exactly one `end` event. -/
theorem Concat.clearGo_open (l : List Nat) :
    ∀ st : Concat, st.ended = false → st.sources ≠ [] → (∀ x ∈ st.sources, x ∈ l) →
    Concat.clearGo l st = ({ st with sources := [], ended := true }, [Ev.endEv]) := by
  induction l with
  | nil =>
    intro st he hne hsub
    exact absurd
      (List.eq_nil_iff_forall_not_mem.mpr (fun a ha => (List.not_mem_nil a) (hsub a ha))) hne
  | cons s rest ih =>
    intro st he hne hsub
    unfold Concat.clearGo
    dsimp only
    by_cases hf : st.sources.filter (fun x => x ≠ s) = []
    · have hrs : st.removeStream s = ({ st with sources := [], ended := true }, [Ev.endEv]) := by
        unfold Concat.removeStream
        rw [hf]
        simp [Concat.readable, Concat.sinkEnd, he]
      rw [hrs]
      dsimp only
      rw [Concat.clearGo_ended rest { st with sources := [], ended := true } rfl
        (by intro x hx; simp at hx)]
      simp
    · have hie : (st.sources.filter (fun x => x ≠ s)).isEmpty = false :=
        List.isEmpty_eq_false.mpr hf
      have hrs : st.removeStream s
          = ({ st with sources := st.sources.filter (fun x => x ≠ s) }, []) := by
        unfold Concat.removeStream
        dsimp only
        rw [hie]
        simp
      have hsub' : ∀ x ∈ ({ st with sources := st.sources.filter (fun x => x ≠ s) } : Concat).sources,
          x ∈ rest := by
        intro x hx
        have hm := List.mem_filter.mp hx
        have hxs : x ≠ s := by simpa using hm.2
        rcases List.mem_cons.mp (hsub x hm.1) with h | h
        · exact absurd h hxs
        · exact h
      rw [hrs]
      dsimp only
      rw [ih { st with sources := st.sources.filter (fun x => x ≠ s) } he hf hsub']
      simp

/-! ## Claims -/

/-- Claim C1 (code bug evaluated): constructing with zero sources yields
the fresh empty state, and `close()` on it emits only the `close` event —
no `end` is ever emitted, because `clear()` over an empty `_sources` never
reaches `this.end()`.  The claim (backed by the README, which states that
`close` *will* trigger the `end` and the `close` events) expects exactly
one `end` followed by one `close`. -/
theorem close_zero_sources_trace :
    newConcat JSVal.undefV JSVal.undefV = (initConcat, none) ∧
    (Concat.close initConcat).1.2 = [Ev.closeEv] ∧
    Ev.endEv ∉ (Concat.close initConcat).1.2 :=
  ⟨rfl, rfl, by decide⟩

/-- Claim C2 (counterexample): removing a valid stream that is not a member
of the Active Set is not always a no-op — on a freshly constructed instance
with an empty Active Set the guard at line 108 holds, `this.end()` runs,
and an `end` event fires. -/
theorem remove_nonmember_emits_end_cex :
    (0 ∉ initConcat.sources) ∧
    (initConcat.remove (JSVal.streamV 0)).1.2 = [Ev.endEv] :=
  ⟨by decide, rfl⟩

/-- Claim C2 (amended): removing a stream that is not a member leaves the
state unchanged and fires no event, provided the Active Set is non-empty or
the sink has already ended. -/
theorem remove_nonmember_noop (st : Concat) (s : Nat)
    (h1 : s ∉ st.sources) (h2 : st.sources ≠ [] ∨ st.ended = true) :
    st.remove (JSVal.streamV s) = ((st, []), none) := by
  obtain ⟨c, srcs, e⟩ := st
  simp only at h1 h2
  have hf : srcs.filter (fun x => x ≠ s) = srcs := by
    rw [List.filter_eq_self]
    intro a ha
    simp only [ne_eq, decide_not, Bool.not_eq_true', decide_eq_false_iff_not]
    exact fun he => h1 (he ▸ ha)
  unfold Concat.remove Concat.removeStream
  dsimp only
  rw [hf]
  rcases h2 with h2 | h2
  · rw [List.isEmpty_eq_false.mpr h2]
    simp
  · subst h2
    simp [Concat.readable]

/-- Witness for the amended claim C2 at a concrete input. -/
theorem remove_nonmember_noop_witness :
    (1 ∉ (⟨false, [0], false⟩ : Concat).sources) ∧
    (⟨false, [0], false⟩ : Concat).remove (JSVal.streamV 1)
      = (((⟨false, [0], false⟩ : Concat), []), none) :=
  ⟨by decide, remove_nonmember_noop (⟨false, [0], false⟩ : Concat) 1 (by decide)
    (Or.inl (by decide))⟩

/-- Claim C10: `remove` performs no validation — line 104 calls
`source.unpipe(this)` unconditionally, so any value without an `unpipe`
method (null, undefined, a plain object, even an array) makes `remove`
throw a TypeError instead of being a no-op. -/
theorem remove_nonstream_typeerror (st : Concat) (v : JSVal)
    (h : hasUnpipe v = false) :
    st.remove v = ((st, []), some JSError.typeError) := by
  cases v <;> simp_all [Concat.remove, hasUnpipe]

/-- Witness for claim C10 at a concrete input (`remove(null)`). -/
theorem remove_nonstream_typeerror_witness :
    hasUnpipe JSVal.nullV = false ∧
    initConcat.remove JSVal.nullV = ((initConcat, []), some JSError.typeError) :=
  ⟨rfl, remove_nonstream_typeerror initConcat JSVal.nullV rfl⟩

/-- Helper for claim C3: running the `forEach` iteration over a batch made
of valid streams followed by the first invalid element registers exactly
the prefix, then throws `InvalidSourceError` and stops — the items after
the invalid one are never reached. -/
theorem Concat.addList_abort (pre : List Nat) :
    ∀ (st : Concat) (bad : JSVal) (post : List JSVal),
    st.closed = false → isReadableStream bad = false → isArray bad = false →
    Concat.addList st (pre.map JSVal.streamV ++ bad :: post)
      = ({ st with sources := st.sources ++ pre }, some JSError.invalidSourceError) := by
  induction pre with
  | nil =>
    intro st bad post h1 h2 h3
    have hbad : st.add bad = (st, some JSError.invalidSourceError) := by
      cases bad <;> simp_all [Concat.add, isReadableStream, isArray]
    simp only [List.map_nil, List.nil_append]
    unfold Concat.addList
    rw [hbad]
    simp
  | cons i pre ih =>
    intro st bad post h1 h2 h3
    have hadd : st.add (JSVal.streamV i) = ({ st with sources := st.sources ++ [i] }, none) := by
      simp [Concat.add, h1]
    simp only [List.map_cons, List.cons_append]
    unfold Concat.addList
    rw [hadd]
    dsimp only
    rw [ih { st with sources := st.sources ++ [i] } bad post h1 h2 h3]
    simp [List.append_assoc]

/-- Claim C3 (counterexample): in `add([stream1, invalid, stream2])` the
exception thrown for the invalid element propagates out of `forEach`, so
`stream2` is never registered — the batch is not processed independently
per item. -/
theorem add_batch_abort_cex :
    (2 ∉ (initConcat.add (JSVal.arrV [JSVal.streamV 1, JSVal.objV, JSVal.streamV 2])).1.sources) ∧
    initConcat.add (JSVal.arrV [JSVal.streamV 1, JSVal.objV, JSVal.streamV 2])
      = ((⟨false, [1], false⟩ : Concat), some JSError.invalidSourceError) :=
  ⟨by decide, rfl⟩

/-- Claim C3 (amended): validation is evaluated per item in iteration
order, but the first invalid element throws `InvalidSourceError` and aborts
the registration of that element *and of every later item in the batch*;
the items preceding it stay registered, and the failing item itself causes
no mutation of the Active Set. -/
theorem add_per_item_abort (st : Concat) (pre : List Nat) (bad : JSVal) (post : List JSVal)
    (hclosed : st.closed = false) (hbadS : isReadableStream bad = false)
    (hbadA : isArray bad = false) :
    st.add (JSVal.arrV (pre.map JSVal.streamV ++ bad :: post))
      = ({ st with sources := st.sources ++ pre }, some JSError.invalidSourceError) := by
  have harr : st.add (JSVal.arrV (pre.map JSVal.streamV ++ bad :: post))
      = Concat.addList st (pre.map JSVal.streamV ++ bad :: post) := by
    simp [Concat.add, hclosed]
  rw [harr]
  exact Concat.addList_abort pre st bad post hclosed hbadS hbadA

/-- Witness for the amended claim C3 at a concrete input. -/
theorem add_per_item_abort_witness :
    initConcat.closed = false ∧ isReadableStream JSVal.objV = false ∧
    isArray JSVal.objV = false ∧
    initConcat.add (JSVal.arrV ([3].map JSVal.streamV ++ JSVal.objV :: [JSVal.streamV 4]))
      = ((⟨false, [3], false⟩ : Concat), some JSError.invalidSourceError) :=
  ⟨rfl, rfl, rfl, add_per_item_abort initConcat [3] JSVal.objV [JSVal.streamV 4] rfl rfl rfl⟩

/-- Claim C4 (counterexample): `add` pushes unconditionally (line 87) with
no membership check, so adding the same stream twice leaves it twice in the
Active Set — the at-most-once invariant fails. -/
theorem add_duplicate_cex :
    ((initConcat.add (JSVal.streamV 5)).1.add (JSVal.streamV 5)).1.sources = [5, 5] ∧
    ((initConcat.add (JSVal.streamV 5)).1.add (JSVal.streamV 5)).1.sources.count 5 = 2 :=
  ⟨rfl, rfl⟩

/-- Claim C4 (amended): the Active Set is a list that may hold a source
several times: every successful `add` of a single stream appends one new
occurrence, so the occurrence count grows by one per call instead of being
capped at one. -/
theorem add_appends_occurrence (st : Concat) (i : Nat) (h : st.closed = false) :
    st.add (JSVal.streamV i) = ({ st with sources := st.sources ++ [i] }, none) ∧
    (st.add (JSVal.streamV i)).1.sources.count i = st.sources.count i + 1 := by
  have h1 : st.add (JSVal.streamV i) = ({ st with sources := st.sources ++ [i] }, none) := by
    simp [Concat.add, h]
  refine ⟨h1, ?_⟩
  rw [h1]
  simp [List.count_append]

/-- Witness for the amended claim C4 at a concrete input. -/
theorem add_appends_occurrence_witness :
    (⟨false, [5], false⟩ : Concat).closed = false ∧
    ((⟨false, [5], false⟩ : Concat).add (JSVal.streamV 5)
        = ((⟨false, [5, 5], false⟩ : Concat), none) ∧
      ((⟨false, [5], false⟩ : Concat).add (JSVal.streamV 5)).1.sources.count 5
        = ([5] : List Nat).count 5 + 1) :=
  ⟨rfl, add_appends_occurrence (⟨false, [5], false⟩ : Concat) 5 rfl⟩

/-- Claim C5: once the Closed flag is set it survives every operation
(`add`, `remove`, `clear`, `close` all leave it true), and a subsequent
`add` fails synchronously with ClosedError, leaving the whole state — in
particular the Active Set — unchanged. -/
theorem closed_permanent (st : Concat) (v : JSVal) (h : st.closed = true) :
    st.add v = (st, some JSError.closedError) ∧
    (st.remove v).1.1.closed = true ∧
    st.clear.1.closed = true ∧
    st.close.1.1.closed = true := by
  refine ⟨?_, ?_, ?_, ?_⟩
  · cases v <;> simp [Concat.add, h]
  · cases v <;> simp [Concat.remove, Concat.removeStream_closed, h]
  · show (Concat.clearGo st.sources st).1.closed = true
    rw [Concat.clearGo_closed]
    exact h
  · simp [Concat.close, h]

/-- Witness for claim C5 at a concrete input. -/
theorem closed_permanent_witness :
    (⟨true, [7], false⟩ : Concat).closed = true ∧
    ((⟨true, [7], false⟩ : Concat).add (JSVal.streamV 9)
        = ((⟨true, [7], false⟩ : Concat), some JSError.closedError) ∧
      ((⟨true, [7], false⟩ : Concat).remove (JSVal.streamV 9)).1.1.closed = true ∧
      (⟨true, [7], false⟩ : Concat).clear.1.closed = true ∧
      (⟨true, [7], false⟩ : Concat).close.1.1.closed = true) :=
  ⟨rfl, closed_permanent (⟨true, [7], false⟩ : Concat) (JSVal.streamV 9) rfl⟩

/-- Claim C6 (code bug evaluated): `close()` invoked on an already-closed
instance executes the bare `return` at line 136 and yields `undefined`
instead of `this`, contradicting its own JSDoc (`@return {Concat} this`)
and the chaining contract; the first `close()` does return `this`. -/
theorem close_on_closed_returns_undef :
    ((⟨true, [], false⟩ : Concat).close).2 = RetVal.retUndef ∧
    (initConcat.close).2 = RetVal.retThis :=
  ⟨rfl, rfl⟩

/-- Claim C7 (counterexample): after the Active Set drains (one `end`
already emitted) and a new source is added, removing that last remaining
member emits no `end` at all — the guard at line 108 fails because
`this.readable` is already false — so "exactly one `end`" does not hold in
every reachable state with a last member. -/
theorem remove_last_no_end_cex :
    (let s1 := (initConcat.add (JSVal.streamV 1)).1
     let s2 := ((s1.remove (JSVal.streamV 1)).1.1.add (JSVal.streamV 2)).1
     s2.sources = [2] ∧ (s2.remove (JSVal.streamV 2)).1.2 = ([] : List Ev)) := by
  decide

/-- Claim C7 (amended): when the sink has not already ended, removing the
last remaining member of the Active Set emits exactly one `end`, and a
repeated `remove` of the same now-absent source emits nothing further
(`this.end()` is idempotent and the sink is no longer readable). -/
theorem remove_last_member_one_end (st : Concat) (s : Nat)
    (hne : st.sources ≠ []) (hall : ∀ x ∈ st.sources, x = s) (hend : st.ended = false) :
    (st.remove (JSVal.streamV s)).1.2 = [Ev.endEv] ∧
    ((st.remove (JSVal.streamV s)).1.1.remove (JSVal.streamV s)).1.2 = [] := by
  have hf : st.sources.filter (fun x => x ≠ s) = [] := by
    rw [List.filter_eq_nil_iff]
    intro a ha
    simp [hall a ha]
  have h1 : st.remove (JSVal.streamV s)
      = (({ st with sources := [], ended := true }, [Ev.endEv]), none) := by
    unfold Concat.remove Concat.removeStream
    dsimp only
    rw [hf]
    simp [Concat.readable, Concat.sinkEnd, hend]
  rw [h1]
  refine ⟨rfl, ?_⟩
  unfold Concat.remove Concat.removeStream
  simp [Concat.readable]

/-- Witness for the amended claim C7 at a concrete input. -/
theorem remove_last_member_one_end_witness :
    ((⟨false, [4], false⟩ : Concat).sources ≠ [] ∧
      (∀ x ∈ (⟨false, [4], false⟩ : Concat).sources, x = 4) ∧
      (⟨false, [4], false⟩ : Concat).ended = false) ∧
    ((⟨false, [4], false⟩ : Concat).remove (JSVal.streamV 4)).1.2 = [Ev.endEv] ∧
    (((⟨false, [4], false⟩ : Concat).remove (JSVal.streamV 4)).1.1.remove
        (JSVal.streamV 4)).1.2 = [] :=
  ⟨⟨by decide, by decide, rfl⟩,
    remove_last_member_one_end (⟨false, [4], false⟩ : Concat) 4 (by decide) (by decide) rfl⟩

/-- Claim C8 (counterexample): on an instance whose sink already ended
(drained, then a new source added), `clear()` on the non-empty Active Set
ends the sink zero times, not exactly once. -/
theorem clear_no_end_when_drained_cex :
    (let s1 := (initConcat.add (JSVal.streamV 1)).1
     let s2 := ((s1.remove (JSVal.streamV 1)).1.1.add (JSVal.streamV 2)).1
     s2.sources ≠ [] ∧ s2.clear.2 = ([] : List Ev)) := by
  decide

/-- Claim C8 (amended): `clear()` on a non-empty Active Set always removes
every member (the `forEach` walks the snapshot while `remove` reassigns the
list), and — provided the sink has not already ended — ends the sink
exactly once, emitting a single `end`. -/
theorem clear_empties_and_ends_once (st : Concat) (h : st.sources ≠ []) :
    st.clear.1.sources = [] ∧
    (st.ended = false → st.clear = ({ st with sources := [], ended := true }, [Ev.endEv])) := by
  by_cases he : st.ended = true
  · have hgo := Concat.clearGo_ended st.sources st he (fun x hx => hx)
    unfold Concat.clear
    rw [hgo]
    exact ⟨rfl, fun hf => absurd he (by simp [hf])⟩
  · have he' : st.ended = false := by simpa using he
    have hgo := Concat.clearGo_open st.sources st he' h (fun x hx => hx)
    unfold Concat.clear
    rw [hgo]
    exact ⟨rfl, fun _ => rfl⟩

/-- Witness for the amended claim C8 at a concrete input. -/
theorem clear_empties_and_ends_once_witness :
    (⟨false, [1, 2], false⟩ : Concat).sources ≠ [] ∧
    ((⟨false, [1, 2], false⟩ : Concat).clear.1.sources = [] ∧
      ((⟨false, [1, 2], false⟩ : Concat).ended = false →
        (⟨false, [1, 2], false⟩ : Concat).clear
          = ((⟨false, [], true⟩ : Concat), [Ev.endEv]))) :=
  ⟨by decide, clear_empties_and_ends_once (⟨false, [1, 2], false⟩ : Concat) (by decide)⟩

/-- Claim C9: invoked as a plain function, the constructor body runs
`return new Concat(options)` (line 37), forwarding only the second
parameter and discarding the first entirely; with a single argument the
second parameter is `undefined`, so the result is always the empty default
construction, even when the discarded argument was a stream or an array of
streams. -/
theorem concat_call_discards_first (x y : JSVal) :
    concatCall x y = newConcat y JSVal.undefV ∧
    concatCall x JSVal.undefV = (initConcat, none) :=
  ⟨rfl, rfl⟩
